import Mathlib

/-!
Verification development for the pydantic-ai core: the OpenAI model adapter
(`pydantic_ai/models/openai.py`) and the agent run loop / result schema as
specified in `spec.md` and pinned by `tests/test_agent.py`.

Machine integers are modelled as `Nat`/`Int` (Python integers are unbounded),
optional fields as `Option`, fallible code as `Except String`.
-/

namespace PydanticAI

/-! ## Data model (spec §3, `pydantic_ai/messages.py`) -/

/-- Tool-call arguments: either a raw JSON-encoded argument string
(`ArgsJson`) or a parsed key→value mapping (`ArgsDict`, values rendered as
strings in this model). -/
inductive Args where
  | json (argsJson : String)
  | dict (argsDict : List (String × String))
deriving DecidableEq, Repr

/-- A tool call: `{tool_name, args, optional provider call id}`. -/
structure ToolCallM where
  toolName : String
  args : Args
  id : Option String
deriving DecidableEq, Repr

/-- `ToolCall.from_json(name, args_json, id)`. -/
def ToolCallM.fromJson (name args : String) (id : Option String) : ToolCallM :=
  ⟨name, Args.json args, id⟩

/-- A message, tagged by role (timestamps elided: they play no role in the
claims about the run loop). -/
inductive Msg where
  | system (content : String)
  | user (content : String)
  | modelText (content : String)
  | modelStructured (calls : List ToolCallM)
  | toolReturn (toolName : String) (content : String) (id : Option String)
  | retry (toolName : Option String) (content : String) (id : Option String)
deriving DecidableEq, Repr

def Msg.isSystem : Msg → Bool
  | .system _ => true
  | _ => false

/-! ## Cost (spec §3; `pydantic_ai/result.py` is not in src/) -/

/-- `dict.update` semantics: replace the value when the key exists, else
append at the end. -/
def dictUpdate1 (a : List (String × Nat)) (k : String) (v : Nat) :
    List (String × Nat) :=
  match a with
  | [] => [(k, v)]
  | (k0, v0) :: rest =>
    if k0 = k then (k0, v) :: rest else (k0, v0) :: dictUpdate1 rest k v

def dictUpdate (a b : List (String × Nat)) : List (String × Nat) :=
  b.foldl (fun acc p => dictUpdate1 acc p.1 p.2) a

/-- Union of the `details` counters summing values on key collision. -/
def detailsInsert (a : List (String × Nat)) (k : String) (v : Nat) :
    List (String × Nat) :=
  match a with
  | [] => [(k, v)]
  | (k0, v0) :: rest =>
    if k0 = k then (k0, v0 + v) :: rest else (k0, v0) :: detailsInsert rest k v

def detailsAdd (a b : List (String × Nat)) : List (String × Nat) :=
  b.foldl (fun acc p => detailsInsert acc p.1 p.2) a

/-- Modelled from the spec: `Cost` (`pydantic_ai/result.py` is not in src/) —
"{request_tokens, response_tokens, total_tokens: non-negative integers,
details: mapping of named sub-counters}". -/
structure Cost where
  requestTokens : Nat
  responseTokens : Nat
  totalTokens : Nat
  details : List (String × Nat)
deriving DecidableEq, Repr

/-- Modelled from the spec: the `Cost` identity value, "all-zero/empty
fields". -/
def Cost.zero : Cost := ⟨0, 0, 0, []⟩

/-- Modelled from the spec: `Cost` addition "sums numeric fields and unions
`details`, summing values on key collision". -/
def Cost.add (a b : Cost) : Cost :=
  ⟨a.requestTokens + b.requestTokens, a.responseTokens + b.responseTokens,
   a.totalTokens + b.totalTokens, detailsAdd a.details b.details⟩

instance : Add Cost := ⟨Cost.add⟩

/-! ## OpenAI wire types for streaming (`openai.py` lines 194–347) -/

/-- `ChoiceDeltaToolCallFunction`: both fields independently nullable. -/
structure ChoiceDeltaFunction where
  name : Option String
  arguments : Option String
deriving DecidableEq, Repr

/-- `ChoiceDeltaToolCall`: a tool-call delta with a provider-assigned
integer index. -/
structure ChoiceDeltaToolCall where
  index : Int
  id : Option String
  function : Option ChoiceDeltaFunction
deriving DecidableEq, Repr

structure ChoiceDelta where
  content : Option String
  toolCalls : Option (List ChoiceDeltaToolCall)
deriving DecidableEq, Repr

structure Choice where
  delta : ChoiceDelta
  finishReason : Option String
deriving DecidableEq, Repr

/-- Per-chunk usage payload feeding `_map_cost`. -/
structure Usage where
  promptTokens : Nat
  completionTokens : Nat
  totalTokens : Nat
  completionTokensDetails : Option (List (String × Nat))
  promptTokensDetails : Option (List (String × Nat))
deriving DecidableEq, Repr

/-- A `ChatCompletionChunk`. -/
structure Chunk where
  created : Nat
  choices : List Choice
  usage : Option Usage
deriving DecidableEq, Repr

/-- `_map_cost` (`openai.py` lines 359–374): `None` usage gives the zero
cost; otherwise details are built by `dict.update` from the completion then
the prompt detail dicts. -/
def mapCost (usage : Option Usage) : Cost :=
  match usage with
  | none => Cost.zero
  | some u =>
    let d : List (String × Nat) := []
    let d := match u.completionTokensDetails with
      | some kvs => dictUpdate d kvs
      | none => d
    let d := match u.promptTokensDetails with
      | some kvs => dictUpdate d kvs
      | none => d
    ⟨u.promptTokens, u.completionTokens, u.totalTokens, d⟩

/-! ## The streamed structured-response accumulator
(`OpenAIStreamStructuredResponse`, `openai.py` lines 302–347).
The in-progress map `_delta_tool_calls : dict[int, ChoiceDeltaToolCall]`
is modelled as an insertion-ordered association list. -/

def assocLookup (m : List (Int × ChoiceDeltaToolCall)) (k : Int) :
    Option ChoiceDeltaToolCall :=
  match m with
  | [] => none
  | (k0, v0) :: rest => if k0 = k then some v0 else assocLookup rest k

/-- In-place update of an existing key (Python dict mutation preserves
insertion order); appends when the key is absent. -/
def assocSet (m : List (Int × ChoiceDeltaToolCall)) (k : Int)
    (v : ChoiceDeltaToolCall) : List (Int × ChoiceDeltaToolCall) :=
  match m with
  | [] => [(k, v)]
  | (k0, v0) :: rest =>
    if k0 = k then (k0, v) :: rest else (k0, v0) :: assocSet rest k v

/-- Modelled from the spec: `_utils.add_optional` (`pydantic_ai/_utils.py`
is not in src/) — "a present incoming name/argument fragment is concatenated
onto the existing one via string append"; an absent operand passes the other
through. -/
def add_optional : Option String → Option String → Option String
  | none, b => b
  | some a, none => some a
  | some a, some b => some (a ++ b)

/-- One iteration of the delta-merge loop in
`OpenAIStreamStructuredResponse.__anext__` (`openai.py` lines 324–332). -/
def applyDelta (m : List (Int × ChoiceDeltaToolCall))
    (new : ChoiceDeltaToolCall) : List (Int × ChoiceDeltaToolCall) :=
  match assocLookup m new.index with
  | some current =>
    let merged :=
      match current.function with
      | none => { current with function := new.function }
      | some curF =>
        match new.function with
        | none => current
        | some newF =>
          { current with
              function := some ⟨add_optional curF.name newF.name,
                                add_optional curF.arguments newF.arguments⟩ }
    assocSet m new.index merged
  | none => m ++ [(new.index, new)]

/-- The dict comprehension `{c.index: c for c in delta.tool_calls}`
initializing the map (`openai.py` line 217). -/
def initDeltaMap (tcs : List ChoiceDeltaToolCall) :
    List (Int × ChoiceDeltaToolCall) :=
  tcs.foldl (fun m c => assocSet m c.index c) []

/-- `OpenAIStreamStructuredResponse.get` (`openai.py` lines 334–341): emit a
`ToolCall` for every entry whose function is present with both name and
arguments non-null; skip all others. -/
def structGet (m : List (Int × ChoiceDeltaToolCall)) : List ToolCallM :=
  m.filterMap fun p =>
    match p.2.function with
    | none => none
    | some f =>
      match f.name, f.arguments with
      | some n, some a => some (ToolCallM.fromJson n a p.2.id)
      | _, _ => none

/-- An in-progress entry is complete when its function is present with both
name and arguments. -/
def deltaComplete (c : ChoiceDeltaToolCall) : Bool :=
  match c.function with
  | none => false
  | some f => f.name.isSome && f.arguments.isSome

/-- The `ToolCall` materialized from a complete entry. -/
def materializeDelta (c : ChoiceDeltaToolCall) : ToolCallM :=
  match c.function with
  | none => ToolCallM.fromJson "" "" c.id
  | some f => ToolCallM.fromJson (f.name.getD "") (f.arguments.getD "") c.id

/-! ## Streaming bootstrap (`_process_streamed_response`, lines 194–221)
and the per-chunk step functions of the two stream response classes.
The `AsyncStream` is modelled as the list of chunks yet to be consumed. -/

/-- State of `OpenAIStreamTextResponse` (lines 262–299). -/
structure TextState where
  first : Option String
  rest : List Chunk
  buffer : List String
  timestamp : Nat
  cost : Cost
deriving DecidableEq, Repr

/-- State of `OpenAIStreamStructuredResponse` (lines 302–347). -/
structure StructState where
  rest : List Chunk
  deltaToolCalls : List (Int × ChoiceDeltaToolCall)
  timestamp : Nat
  cost : Cost
deriving DecidableEq, Repr

/-- `EitherStreamedResponse`: the value returned by the bootstrap loop. -/
inductive EitherStreamedResponse where
  | text (s : TextState)
  | structured (s : StructState)
deriving DecidableEq, Repr

def EitherStreamedResponse.timestamp : EitherStreamedResponse → Nat
  | .text s => s.timestamp
  | .structured s => s.timestamp

def EitherStreamedResponse.cost : EitherStreamedResponse → Cost
  | .text s => s.cost
  | .structured s => s.cost

/-- `_process_streamed_response` (`openai.py` lines 194–221): consume chunks
until one carries content or tool-call deltas, accumulating cost along the
way; the timestamp is set by `timestamp = timestamp or
datetime.fromtimestamp(chunk.created, ...)`; stream exhaustion first raises
`UnexpectedModelBehavior`. -/
def processStreamedResponse :
    List Chunk → Cost → Option Nat → Except String EitherStreamedResponse
  | [], _, _ => .error "Streamed response ended without content or tool calls"
  | chunk :: rest, startCost, timestamp =>
    let timestamp := timestamp.getD chunk.created
    let startCost := startCost + mapCost chunk.usage
    match chunk.choices.head? with
    | none => processStreamedResponse rest startCost (some timestamp)
    | some choice =>
      match choice.delta.content with
      | some c => .ok (.text ⟨some c, rest, [], timestamp, startCost⟩)
      | none =>
        match choice.delta.toolCalls with
        | some tcs =>
          .ok (.structured ⟨rest, initDeltaMap tcs, timestamp, startCost⟩)
        | none => processStreamedResponse rest startCost (some timestamp)

/-- A chunk is informative when its first choice carries textual content or
a tool-call delta; chunks with no choices are heartbeats. -/
def informative (c : Chunk) : Bool :=
  match c.choices.head? with
  | none => false
  | some ch => ch.delta.content.isSome || ch.delta.toolCalls.isSome

/-- Result of one `__anext__` step on a stream response state: the stream
signalled stop (`StopAsyncIteration`) or the updated state continues. -/
inductive StructStep where
  | stopped (s : StructState)
  | next (s : StructState)
deriving DecidableEq, Repr

def StructStep.state : StructStep → StructState
  | .stopped s => s
  | .next s => s

/-- `OpenAIStreamStructuredResponse.__anext__` (lines 311–332): pull a
chunk, add its cost, stop on empty choices or a finish marker, reject
simultaneous content, and fold every delta into the in-progress map. -/
def structAnext (s : StructState) : Except String StructStep :=
  match s.rest with
  | [] => .ok (.stopped s)
  | chunk :: rest =>
    let s := { s with rest := rest, cost := s.cost + mapCost chunk.usage }
    match chunk.choices.head? with
    | none => .ok (.stopped s)
    | some choice =>
      if choice.finishReason.isSome then .ok (.stopped s)
      else
        match choice.delta.content with
        | some _ => .error "Expected tool calls, got content instead"
        | none =>
          .ok (.next { s with
            deltaToolCalls :=
              (choice.delta.toolCalls.getD []).foldl applyDelta
                s.deltaToolCalls })

inductive TextStep where
  | stopped (s : TextState)
  | next (s : TextState)
deriving DecidableEq, Repr

def TextStep.state : TextStep → TextState
  | .stopped s => s
  | .next s => s

/-- `OpenAIStreamTextResponse.__anext__` (lines 272–289). -/
def textAnext (s : TextState) : Except String TextStep :=
  match s.first with
  | some f => .ok (.next { s with buffer := s.buffer ++ [f], first := none })
  | none =>
    match s.rest with
    | [] => .ok (.stopped s)
    | chunk :: rest =>
      let s := { s with rest := rest, cost := s.cost + mapCost chunk.usage }
      match chunk.choices.head? with
      | none => .ok (.stopped s)
      | some choice =>
        if choice.finishReason.isNone && choice.delta.content.isNone then
          .error "Expected delta with content, invalid chunk"
        else
          match choice.delta.content with
          | some c => .ok (.next { s with buffer := s.buffer ++ [c] })
          | none => .ok (.next s)

/-- Projection used to state results about the bootstrap without binders:
the cost of a successful bootstrap. -/
def okCost : Except String EitherStreamedResponse → Option Cost
  | .ok r => some r.cost
  | .error _ => none

/-- The timestamp of a successful bootstrap. -/
def okTimestamp : Except String EitherStreamedResponse → Option Nat
  | .ok r => some r.timestamp
  | .error _ => none

/-! ## Non-streamed responses (`_process_response`, lines 180–192) -/

/-- A complete tool call on a non-streamed choice message. -/
structure FullToolCall where
  id : String
  name : String
  arguments : String
deriving DecidableEq, Repr

/-- `choice.message` of a non-streamed `ChatCompletion`. -/
structure ChatMessage where
  content : Option String
  toolCalls : Option (List FullToolCall)
deriving DecidableEq, Repr

structure CompletionChoice where
  message : ChatMessage
deriving DecidableEq, Repr

structure ChatCompletion where
  created : Nat
  choices : List CompletionChoice
deriving DecidableEq, Repr

/-- A model response tagged with the response timestamp. -/
inductive ModelAnyResponseT where
  | text (content : String) (timestamp : Nat)
  | structured (calls : List ToolCallM) (timestamp : Nat)
deriving DecidableEq, Repr

/-- `_process_response` (`openai.py` lines 180–192): a non-`None`
`tool_calls` list yields a structured response (content unread); otherwise
the content must be present (assertion) and yields a text response. -/
def processResponse (response : ChatCompletion) :
    Except String ModelAnyResponseT :=
  match response.choices.head? with
  | none => .error "IndexError: no choices"
  | some choice =>
    match choice.message.toolCalls with
    | some tcs =>
      .ok (.structured
        (tcs.map fun c => ToolCallM.fromJson c.name c.arguments (some c.id))
        response.created)
    | none =>
      match choice.message.content with
      | some content => .ok (.text content response.created)
      | none => .error "AssertionError: choice.message.content is None"

/-! ## Request construction (`_completions_create`, lines 157–178) -/

/-- A provider tool schema object, image of `_map_tool_definition`. -/
structure ToolParam where
  name : String
  description : String
  parameters : String
deriving DecidableEq, Repr

/-- A declared tool (spec §3 `ToolDefinition`), the JSON schema rendered
opaquely. -/
structure ToolDefinition where
  name : String
  description : String
  parametersJsonSchema : String
  outerTypedDictKey : Option String
deriving DecidableEq, Repr

/-- `OpenAIModel._map_tool_definition` (lines 116–125). -/
def mapToolDefinition (f : ToolDefinition) : ToolParam :=
  ⟨f.name, f.description, f.parametersJsonSchema⟩

/-- `OpenAIModel.agent_model` (lines 95–111): function tools mapped, result
tools appended when present. -/
def agentModelTools (functionTools resultTools : List ToolDefinition) :
    List ToolParam :=
  let tools := functionTools.map mapToolDefinition
  if resultTools.isEmpty then tools
  else tools ++ resultTools.map mapToolDefinition

/-- The fields of `OpenAIAgentModel` relevant to request construction. -/
structure OpenAIAgentModelS where
  modelName : String
  allowTextResult : Bool
  tools : List ToolParam
deriving DecidableEq, Repr

/-- The request as handed to `client.chat.completions.create`; `none`
stands for `NOT_GIVEN` (parameter absent). -/
structure CompletionRequest where
  model : String
  toolsParam : Option (List ToolParam)
  toolChoice : Option String
  parallelToolCalls : Option Bool
  stream : Bool
deriving DecidableEq, Repr

/-- `_completions_create` (`openai.py` lines 157–178): `tool_choice` is
`None` without tools, `required` when text results are disallowed, else
`auto`; `x or NOT_GIVEN` turns `None`/empty into an absent parameter. -/
def completionsCreate (s : OpenAIAgentModelS) (stream : Bool) :
    CompletionRequest :=
  let toolChoice : Option String :=
    if s.tools.isEmpty then none
    else if s.allowTextResult = false then some "required"
    else some "auto"
  { model := s.modelName
  , toolsParam := if s.tools.isEmpty then none else some s.tools
  , toolChoice := toolChoice
  , parallelToolCalls := if s.tools.isEmpty then none else some true
  , stream := stream }

/-! ## Result schema and run loop
`pydantic_ai/agent.py` and `pydantic_ai/_result.py` are not in src/; the
definitions below are modelled from spec §4.3–§4.4 and pinned against the
observable behavior recorded in `src/tests/test_agent.py`. -/

/-- A registered function tool: `.error` is the recoverable `ModelRetry`
signal, `.ok` the stringified return value. -/
structure FunctionTool where
  name : String
  run : Args → Except String String

/-- A result-schema tool: `.error` is the list of rendered validation error
records, `.ok` the validated data (rendered as a string in this model). -/
structure ResultTool where
  name : String
  description : String
  validate : Args → Except (List String) String

/-- Modelled from the spec: one member of a declared union result type
(`pydantic_ai/_result.py` is not in src/) — a type name, an optional
docstring, and the member-specific validation function. -/
structure UnionMember where
  name : String
  docstring : Option String
  validate : Args → Except (List String) String

/-- The default result-tool description, pinned by
`test_response_tuple` in `src/tests/test_agent.py`. -/
def defaultResultDescription : String :=
  "The final response which ends this conversation"

/-- Modelled from the spec: the result tool built for one member of a union
result type (spec §4.3; `pydantic_ai/_result.py` is not in src/). The name
is `final_result_<MemberTypeName>`. The description is pinned by
`test_response_multiple_return_tools`: a member with its own docstring gets
the bare docstring, a member without one gets the default description
prefixed with `<MemberTypeName>: `. -/
def unionResultTool (m : UnionMember) : ResultTool :=
  { name := "final_result_" ++ m.name
  , description :=
      match m.docstring with
      | some d => d
      | none => m.name ++ ": " ++ defaultResultDescription
  , validate := m.validate }

/-- Modelled from the spec: the result-tool surface of a union of members,
one tool per member in declaration order. -/
def buildUnionSchema (members : List UnionMember) : List ResultTool :=
  members.map unionResultTool

/-- `ResultSchema` lookup of a tool by name. -/
def findResultTool (tools : List ResultTool) (name : String) :
    Option ResultTool :=
  tools.find? fun t => t.name = name

/-- Agent configuration for a run. -/
structure AgentCfg where
  systemPrompts : List String
  functionTools : List FunctionTool
  resultTools : List ResultTool
  allowTextResult : Bool
  maxRetries : Nat

/-- All valid tool names known to the loop: function tools then result
tools. -/
def allToolNames (cfg : AgentCfg) : List String :=
  cfg.functionTools.map (fun t => t.name) ++ cfg.resultTools.map (fun t => t.name)

/-- An ASCII apostrophe, kept out of string literals. -/
def sq : String := (Char.ofNat 39).toString

/-- Modelled from the spec: the unknown-tool retry text (spec §4.4) —
`Unknown tool name: <quoted name>.` then the list of valid names when any
tools exist, else `No tools available.` (the no-tools form is pinned by
`test_unknown_tool`). -/
def unknownToolMsg (toolName : String) (names : List String) : String :=
  "Unknown tool name: " ++ sq ++ toolName ++ sq ++ ". " ++
    (if names.isEmpty then "No tools available."
     else "Available tools: " ++ String.intercalate ", " names)

/-- Fatal message when the retry bound is exceeded (pinned by
`test_unknown_tool`). -/
def exceededMsg (n : Nat) : String :=
  "Exceeded maximum retries (" ++ toString n ++ ") for result validation"

/-- Retry text for a disallowed plain-text response (pinned by
`test_plain_response`). -/
def plainTextNotPermitted : String :=
  "Plain text responses are not permitted, please call one of the functions instead."

/-- Confirmation content of the final-result `ToolReturn` (pinned by
several tests). -/
def finalResultProcessed : String := "Final result processed."

/-- Rendering of structured validation error records into retry content. -/
def renderErrors (errs : List String) : String :=
  String.intercalate "; " errs

/-- A deterministic model: the full message history so far to a response
(as `FunctionModel` in the tests). -/
inductive ModelResponse where
  | text (content : String)
  | structured (calls : List ToolCallM)

/-- Modelled from the spec: find the first call in the response naming a
result-schema tool (spec §4.4). -/
def findResultCall (tools : List ResultTool) :
    List ToolCallM → Option (ToolCallM × ResultTool)
  | [] => none
  | call :: rest =>
    match findResultTool tools call.toolName with
    | some t => some (call, t)
    | none => findResultCall tools rest

/-- Modelled from the spec: dispatch of the non-result calls of one
structured response, in listed order (spec §4.4). Returns the messages to
append and the updated retry counter, or the fatal retry-limit error; a
fatal abort discards the retry messages built so far, as in the source run
loop where the exception propagates before the local list is appended. -/
def handleCalls (cfg : AgentCfg) :
    List ToolCallM → Nat → Except String (List Msg × Nat)
  | [], retries => .ok ([], retries)
  | call :: rest, retries =>
    match cfg.functionTools.find? (fun t => t.name = call.toolName) with
    | some tool =>
      match tool.run call.args with
      | .ok out =>
        (handleCalls cfg rest retries).map fun p =>
          (Msg.toolReturn call.toolName out call.id :: p.1, p.2)
      | .error m =>
        if cfg.maxRetries < retries + 1 then .error (exceededMsg cfg.maxRetries)
        else
          (handleCalls cfg rest (retries + 1)).map fun p =>
            (Msg.retry (some call.toolName) m call.id :: p.1, p.2)
    | none =>
      if cfg.maxRetries < retries + 1 then .error (exceededMsg cfg.maxRetries)
      else
        (handleCalls cfg rest (retries + 1)).map fun p =>
          (Msg.retry none (unknownToolMsg call.toolName (allToolNames cfg)) none :: p.1,
           p.2)

/-- Outcome of the request/response loop, before the surrounding run
attaches the new-message index. -/
inductive LoopOutcome where
  | finished (msgs : List Msg) (data : String)
  | fatal (err : String) (msgs : List Msg)

def LoopOutcome.msgs : LoopOutcome → List Msg
  | .finished m _ => m
  | .fatal _ m => m

/-- Modelled from the spec: the run loop (spec §4.4), fuel-bounded (`fuel`
counts remaining model requests; a run that does not settle within the fuel
is reported as fatal). The model response is appended first; a text
response finishes or consumes a retry; a structured response first looks
for a result-tool call, validates it, else dispatches function tools and
unknown names; every recoverable failure increments the shared retry
counter and turns fatal past `maxRetries`. -/
def runLoop (cfg : AgentCfg) (model : List Msg → ModelResponse) :
    Nat → List Msg → Nat → LoopOutcome
  | 0, msgs, _ => .fatal "ran out of fuel" msgs
  | fuel + 1, msgs, retries =>
    match model msgs with
    | .text content =>
      if cfg.allowTextResult then
        .finished (msgs ++ [Msg.modelText content]) content
      else if cfg.maxRetries < retries + 1 then
        .fatal (exceededMsg cfg.maxRetries) (msgs ++ [Msg.modelText content])
      else
        runLoop cfg model fuel
          (msgs ++ [Msg.modelText content,
                    Msg.retry none plainTextNotPermitted none])
          (retries + 1)
    | .structured calls =>
      match findResultCall cfg.resultTools calls with
      | some (call, tool) =>
        match tool.validate call.args with
        | .ok data =>
          .finished
            (msgs ++ [Msg.modelStructured calls,
                      Msg.toolReturn call.toolName finalResultProcessed call.id])
            data
        | .error errs =>
          if cfg.maxRetries < retries + 1 then
            .fatal (exceededMsg cfg.maxRetries)
              (msgs ++ [Msg.modelStructured calls])
          else
            runLoop cfg model fuel
              (msgs ++ [Msg.modelStructured calls,
                        Msg.retry (some call.toolName) (renderErrors errs) call.id])
              (retries + 1)
      | none =>
        if calls.isEmpty then
          .fatal "Received empty tool call message"
            (msgs ++ [Msg.modelStructured calls])
        else
          match handleCalls cfg calls retries with
          | .error e => .fatal e (msgs ++ [Msg.modelStructured calls])
          | .ok (newMsgs, retries') =>
            runLoop cfg model fuel
              (msgs ++ Msg.modelStructured calls :: newMsgs) retries'

/-- Modelled from the spec: history bootstrapping (spec §4.4) — the
configured system prompts are inserted at the front only when the supplied
prior history contains no `SystemPrompt`. -/
def prepareMessages (cfg : AgentCfg) (history : List Msg) : List Msg :=
  if history.any Msg.isSystem then history
  else cfg.systemPrompts.map Msg.system ++ history

/-- `RunResult` (spec §3): full history, index of the first message of this
run, final data, accumulated cost. -/
structure RunResult where
  allMessages : List Msg
  newMessageIndex : Nat
  data : String
  cost : Cost
deriving DecidableEq, Repr

/-- `RunResult.new_messages()`: the history sliced from
`new_message_index`. -/
def RunResult.newMessages (r : RunResult) : List Msg :=
  r.allMessages.drop r.newMessageIndex

inductive RunOutcome where
  | done (r : RunResult)
  | fatal (err : String) (msgs : List Msg)
deriving DecidableEq, Repr

/-- Modelled from the spec: one run (spec §4.4) — bootstrap the history,
record the new-message index, append the user prompt of this run, and iterate
the loop. Cost accumulation is not exercised by the function-model runs the
claims are about, so the result cost is the identity. -/
def runAgent (cfg : AgentCfg) (model : List Msg → ModelResponse) (fuel : Nat)
    (prompt : String) (history : List Msg) : RunOutcome :=
  match runLoop cfg model fuel
      (prepareMessages cfg history ++ [Msg.user prompt]) 0 with
  | .finished msgs data =>
    .done ⟨msgs, (prepareMessages cfg history).length, data, Cost.zero⟩
  | .fatal e msgs => .fatal e msgs

/-! ## Helper lemmas -/

theorem assocLookup_assocSet (m : List (Int × ChoiceDeltaToolCall)) (k : Int)
    (v : ChoiceDeltaToolCall) : assocLookup (assocSet m k v) k = some v := by
  induction m with
  | nil => simp [assocSet, assocLookup]
  | cons p rest ih =>
    by_cases h : p.1 = k
    · simp [assocSet, assocLookup, h]
    · simp [assocSet, assocLookup, h, ih]

/-! ## Claims about the streamed structured-response accumulator -/

/-- Claim C1: in the streamed structured-response accumulator, an unseen
index is inserted into the in-progress map; for a seen index a present
incoming name or argument fragment is concatenated onto the existing one by
string append, so the fragments of the spec example reconstruct the
arguments string exactly. -/
theorem claim_C1_delta_merge_appends :
    (∀ (m : List (Int × ChoiceDeltaToolCall)) (new : ChoiceDeltaToolCall),
       assocLookup m new.index = none →
       applyDelta m new = m ++ [(new.index, new)])
    ∧ (∀ (m : List (Int × ChoiceDeltaToolCall)) (new : ChoiceDeltaToolCall)
         (cur : ChoiceDeltaToolCall) (curF newF : ChoiceDeltaFunction),
       assocLookup m new.index = some cur →
       cur.function = some curF → new.function = some newF →
       assocLookup (applyDelta m new) new.index =
         some { cur with
                  function := some ⟨add_optional curF.name newF.name,
                                    add_optional curF.arguments newF.arguments⟩ })
    ∧ (∀ a b : String, add_optional (some a) (some b) = some (a ++ b))
    ∧ structGet (applyDelta
        [(0, ⟨0, some "id0", some ⟨some "final_result", some "\x7b\"a\": 4"⟩⟩)]
        ⟨0, none, some ⟨none, some "2\x7d"⟩⟩) =
        [ToolCallM.fromJson "final_result" "\x7b\"a\": 42\x7d" (some "id0")] := by
  refine ⟨?_, ?_, fun a b => rfl, rfl⟩
  · intro m new h
    simp [applyDelta, h]
  · intro m new cur curF newF h hcur hnew
    simp only [applyDelta, h, hcur, hnew]
    exact assocLookup_assocSet m new.index _

/-- Witness for C1 at concrete inputs. -/
theorem claim_C1_delta_merge_appends_witness :
    applyDelta [] ⟨0, none, none⟩ = [((0 : Int), ⟨0, none, none⟩)]
    ∧ assocLookup (applyDelta
        [((0 : Int), ⟨0, some "i", some ⟨some "f", some "x"⟩⟩)]
        ⟨0, none, some ⟨none, some "y"⟩⟩) 0 =
        some ⟨0, some "i", some ⟨add_optional (some "f") none,
                                 add_optional (some "x") (some "y")⟩⟩ :=
  ⟨claim_C1_delta_merge_appends.1 [] ⟨0, none, none⟩ rfl,
   claim_C1_delta_merge_appends.2.1
     [((0 : Int), ⟨0, some "i", some ⟨some "f", some "x"⟩⟩)]
     ⟨0, none, some ⟨none, some "y"⟩⟩
     ⟨0, some "i", some ⟨some "f", some "x"⟩⟩
     ⟨some "f", some "x"⟩ ⟨none, some "y"⟩ rfl rfl rfl⟩

/-- Claim C2: materializing the streamed structured response emits one
completed `ToolCall` for exactly the entries of the in-progress map whose
name and arguments are both present, and omits all others, so no incomplete
tool call appears in the result. -/
theorem claim_C2_get_emits_exactly_complete_calls :
    ∀ m : List (Int × ChoiceDeltaToolCall),
      structGet m =
        (m.filter fun p => deltaComplete p.2).map fun p => materializeDelta p.2 := by
  intro m
  induction m with
  | nil => rfl
  | cons p rest ih =>
    obtain ⟨i, c⟩ := p
    obtain ⟨idx, id, fn⟩ := c
    cases fn with
    | none =>
      simpa [structGet, deltaComplete, List.filter_cons] using ih
    | some f =>
      obtain ⟨n, a⟩ := f
      cases n <;> cases a <;>
        simp_all [structGet, deltaComplete, materializeDelta,
          List.filter_cons, ToolCallM.fromJson]

/-! ## Claims about request construction and the non-streamed response -/

/-- Claim C9: the request sets no `tool_choice` when no tools are declared,
forces tool use (`required`) when tools exist and plain-text results are
disallowed, and otherwise sets optional tool use (`auto`). -/
theorem claim_C9_tool_choice :
    ∀ (s : OpenAIAgentModelS) (stream : Bool),
      (s.tools = [] → (completionsCreate s stream).toolChoice = none)
      ∧ (s.tools ≠ [] → s.allowTextResult = false →
          (completionsCreate s stream).toolChoice = some "required")
      ∧ (s.tools ≠ [] → s.allowTextResult = true →
          (completionsCreate s stream).toolChoice = some "auto") := by
  intro s stream
  refine ⟨fun h => ?_, fun h h2 => ?_, fun h h2 => ?_⟩
  · simp [completionsCreate, h]
  · simp [completionsCreate, h2, List.isEmpty_iff, h]
  · simp [completionsCreate, h2, List.isEmpty_iff, h]

/-- Witness for C9 at concrete inputs. -/
theorem claim_C9_tool_choice_witness :
    ((completionsCreate ⟨"gpt", true, []⟩ false).toolChoice = none)
    ∧ ((completionsCreate ⟨"gpt", false, [⟨"t", "d", "p"⟩]⟩ false).toolChoice =
        some "required")
    ∧ ((completionsCreate ⟨"gpt", true, [⟨"t", "d", "p"⟩]⟩ false).toolChoice =
        some "auto") :=
  ⟨(claim_C9_tool_choice ⟨"gpt", true, []⟩ false).1 rfl,
   (claim_C9_tool_choice ⟨"gpt", false, [⟨"t", "d", "p"⟩]⟩ false).2.1
     (by simp) rfl,
   (claim_C9_tool_choice ⟨"gpt", true, [⟨"t", "d", "p"⟩]⟩ false).2.2
     (by simp) rfl⟩

/-- Claim C10: a non-`None` `tool_calls` list on the choice message yields a
structured response and the content is ignored; a text response is returned
only when `tool_calls` is `None` and content is present; neither present
fails the assertion instead of producing a value. -/
theorem claim_C10_tool_calls_take_precedence :
    (∀ (created : Nat) (content : Option String) (tcs : List FullToolCall)
       (rest : List CompletionChoice),
       processResponse ⟨created, ⟨⟨content, some tcs⟩⟩ :: rest⟩ =
         .ok (.structured
           (tcs.map fun c => ToolCallM.fromJson c.name c.arguments (some c.id))
           created))
    ∧ (∀ (created : Nat) (c : String) (rest : List CompletionChoice),
       processResponse ⟨created, ⟨⟨some c, none⟩⟩ :: rest⟩ =
         .ok (.text c created))
    ∧ (∀ (created : Nat) (rest : List CompletionChoice),
       processResponse ⟨created, ⟨⟨none, none⟩⟩ :: rest⟩ =
         .error "AssertionError: choice.message.content is None") :=
  ⟨fun _ _ _ _ => rfl, fun _ _ _ => rfl, fun _ _ => rfl⟩

/-! ## Claims about the streaming bootstrap -/

theorem processStreamedResponse_cons_skip (c : Chunk) (rest : List Chunk)
    (cost : Cost) (ts : Option Nat) (h : informative c = false) :
    processStreamedResponse (c :: rest) cost ts =
      processStreamedResponse rest (cost + mapCost c.usage)
        (some (ts.getD c.created)) := by
  unfold informative at h
  cases hc : c.choices.head? with
  | none => simp [processStreamedResponse, hc]
  | some ch =>
    rw [hc] at h
    cases hcon : ch.delta.content with
    | some s => simp [hcon] at h
    | none =>
      cases htc : ch.delta.toolCalls with
      | some t => simp [hcon, htc] at h
      | none => simp [processStreamedResponse, hc, hcon, htc]

theorem processStreamedResponse_cons_informative (c : Chunk)
    (rest : List Chunk) (cost : Cost) (ts : Option Nat)
    (h : informative c = true) :
    okCost (processStreamedResponse (c :: rest) cost ts) =
      some (cost + mapCost c.usage)
    ∧ okTimestamp (processStreamedResponse (c :: rest) cost ts) =
      some (ts.getD c.created) := by
  unfold informative at h
  cases hc : c.choices.head? with
  | none => rw [hc] at h; simp at h
  | some ch =>
    rw [hc] at h
    cases hcon : ch.delta.content with
    | some s =>
      simp [processStreamedResponse, hc, hcon, okCost, okTimestamp,
        EitherStreamedResponse.cost, EitherStreamedResponse.timestamp]
    | none =>
      cases htc : ch.delta.toolCalls with
      | none => simp [hcon, htc] at h
      | some t =>
        simp [processStreamedResponse, hc, hcon, htc, okCost, okTimestamp,
          EitherStreamedResponse.cost, EitherStreamedResponse.timestamp]

theorem processStreamedResponse_all_skip :
    ∀ (chunks : List Chunk) (cost : Cost) (ts : Option Nat),
      (∀ c ∈ chunks, informative c = false) →
      processStreamedResponse chunks cost ts =
        .error "Streamed response ended without content or tool calls" := by
  intro chunks
  induction chunks with
  | nil => intro cost ts _; rfl
  | cons c rest ih =>
    intro cost ts h
    rw [processStreamedResponse_cons_skip c rest cost ts (h c (by simp))]
    exact ih _ _ fun d hd => h d (by simp [hd])

theorem processStreamedResponse_cost_through_first_informative :
    ∀ (pre : List Chunk) (c : Chunk) (post : List Chunk) (cost : Cost)
      (ts : Option Nat),
      (∀ d ∈ pre, informative d = false) → informative c = true →
      okCost (processStreamedResponse (pre ++ c :: post) cost ts) =
        some ((pre ++ [c]).foldl (fun acc d => acc + mapCost d.usage) cost) := by
  intro pre
  induction pre with
  | nil =>
    intro c post cost ts _ hc
    simpa using (processStreamedResponse_cons_informative c post cost ts hc).1
  | cons d rest ih =>
    intro c post cost ts h hc
    rw [List.cons_append,
      processStreamedResponse_cons_skip d (rest ++ c :: post) cost ts
        (h d (by simp))]
    rw [ih c post _ _ (fun x hx => h x (by simp [hx])) hc]
    simp

/-- Claim C5: chunks carrying neither content nor a tool-call delta are
skipped by the streaming bootstrap but their usage is still accumulated into
the cost, and a stream exhausted before any informative chunk fails with
the protocol-violation error instead of returning a response. -/
theorem claim_C5_bootstrap_skips_but_counts_cost :
    (∀ chunks : List Chunk,
       (∀ c ∈ chunks, informative c = false) →
       processStreamedResponse chunks Cost.zero none =
         .error "Streamed response ended without content or tool calls")
    ∧ (∀ (pre : List Chunk) (c : Chunk) (post : List Chunk),
       (∀ d ∈ pre, informative d = false) → informative c = true →
       okCost (processStreamedResponse (pre ++ c :: post) Cost.zero none) =
         some ((pre ++ [c]).foldl (fun acc d => acc + mapCost d.usage)
           Cost.zero)) :=
  ⟨fun chunks h => processStreamedResponse_all_skip chunks Cost.zero none h,
   fun pre c post h hc =>
     processStreamedResponse_cost_through_first_informative pre c post
       Cost.zero none h hc⟩

/-- Witness for C5 at concrete inputs: a pure-heartbeat stream fails, and a
heartbeat followed by a content chunk accumulates both usages. -/
theorem claim_C5_bootstrap_skips_but_counts_cost_witness :
    processStreamedResponse [⟨1, [], some ⟨1, 2, 3, none, none⟩⟩] Cost.zero
      none = .error "Streamed response ended without content or tool calls"
    ∧ okCost (processStreamedResponse
        ([⟨1, [], some ⟨1, 2, 3, none, none⟩⟩] ++
          ⟨2, [⟨⟨some "hi", none⟩, none⟩], some ⟨4, 5, 9, none, none⟩⟩ :: [])
        Cost.zero none) =
      some (([⟨1, [], some ⟨1, 2, 3, none, none⟩⟩,
              ⟨2, [⟨⟨some "hi", none⟩, none⟩], some ⟨4, 5, 9, none, none⟩⟩]
             : List Chunk).foldl
        (fun acc d => acc + mapCost d.usage) Cost.zero) :=
  ⟨claim_C5_bootstrap_skips_but_counts_cost.1 _ (by decide),
   claim_C5_bootstrap_skips_but_counts_cost.2 _ _ [] (by decide) (by decide)⟩

theorem processStreamedResponse_timestamp_some :
    ∀ (chunks : List Chunk) (cost : Cost) (t : Nat)
      (r : EitherStreamedResponse),
      processStreamedResponse chunks cost (some t) = .ok r →
      r.timestamp = t := by
  intro chunks
  induction chunks with
  | nil => intro cost t r h; simp [processStreamedResponse] at h
  | cons c rest ih =>
    intro cost t r h
    by_cases hinf : informative c = true
    · have := (processStreamedResponse_cons_informative c rest cost (some t)
        hinf).2
      rw [h] at this
      simpa [okTimestamp] using this
    · rw [processStreamedResponse_cons_skip c rest cost (some t)
        (by simpa using hinf)] at h
      simpa using ih _ _ _ h

/-- Claim C6 (amended): the timestamp of the first chunk of the stream,
informative or not, becomes the response timestamp, and neither stream
response class ever changes it afterwards. -/
theorem claim_C6_first_chunk_timestamp_fixed :
    (∀ (c : Chunk) (rest : List Chunk) (r : EitherStreamedResponse),
       processStreamedResponse (c :: rest) Cost.zero none = .ok r →
       r.timestamp = c.created)
    ∧ (∀ (s : StructState) (step : StructStep),
       structAnext s = .ok step → step.state.timestamp = s.timestamp)
    ∧ (∀ (s : TextState) (step : TextStep),
       textAnext s = .ok step → step.state.timestamp = s.timestamp) := by
  refine ⟨?_, ?_, ?_⟩
  · intro c rest r h
    by_cases hinf : informative c = true
    · have := (processStreamedResponse_cons_informative c rest Cost.zero none
        hinf).2
      rw [h] at this
      simpa [okTimestamp] using this
    · rw [processStreamedResponse_cons_skip c rest Cost.zero none
        (by simpa using hinf)] at h
      simpa using processStreamedResponse_timestamp_some _ _ _ _ h
  · intro s step h
    unfold structAnext at h
    split at h
    · cases h; rfl
    · split at h
      · cases h; rfl
      · split at h
        · cases h; rfl
        · split at h
          · exact absurd h (by simp)
          · cases h; rfl
  · intro s step h
    unfold textAnext at h
    split at h
    · cases h; rfl
    · split at h
      · cases h; rfl
      · split at h
        · cases h; rfl
        · split at h
          · exact absurd h (by simp)
          · split at h
            · cases h; rfl
            · cases h; rfl

/-- Witness for C6 (amended) at concrete inputs. -/
theorem claim_C6_first_chunk_timestamp_fixed_witness :
    (EitherStreamedResponse.text ⟨some "hi", [], [], 7, Cost.zero⟩).timestamp = 7
    ∧ (StructStep.stopped ⟨[], [], 7, Cost.zero⟩).state.timestamp =
      (⟨[], [], 7, Cost.zero⟩ : StructState).timestamp :=
  ⟨claim_C6_first_chunk_timestamp_fixed.1
     ⟨7, [⟨⟨some "hi", none⟩, none⟩], none⟩ [] _ rfl,
   claim_C6_first_chunk_timestamp_fixed.2.1 ⟨[], [], 7, Cost.zero⟩ _ rfl⟩

/-- Counterexample to C6 as stated: when the stream opens with a pure
heartbeat chunk (created = 1) and the first informative chunk arrives later
(created = 2), the response timestamp is that of the heartbeat, not that of the first
informative chunk. -/
theorem claim_C6_counterexample :
    okTimestamp (processStreamedResponse
        [⟨1, [], none⟩, ⟨2, [⟨⟨some "hello", none⟩, none⟩], none⟩]
        Cost.zero none) = some 1
    ∧ informative ⟨1, [], none⟩ = false
    ∧ informative ⟨2, [⟨⟨some "hello", none⟩, none⟩], none⟩ = true
    ∧ (Chunk.mk 2 [⟨⟨some "hello", none⟩, none⟩] none).created = 2
    ∧ (1 : Nat) ≠ 2 :=
  ⟨rfl, rfl, rfl, rfl, by decide⟩

/-! ## Claims about the run loop -/

theorem runLoop_msgs_extends (cfg : AgentCfg)
    (model : List Msg → ModelResponse) :
    ∀ (fuel : Nat) (msgs : List Msg) (retries : Nat),
      ∃ t, (runLoop cfg model fuel msgs retries).msgs = msgs ++ t := by
  intro fuel
  induction fuel with
  | zero =>
    intro msgs retries
    exact ⟨[], by simp [runLoop, LoopOutcome.msgs]⟩
  | succ n ih =>
    intro msgs retries
    rw [runLoop]
    split
    next content heq =>
      split
      · exact ⟨_, rfl⟩
      · split
        · exact ⟨_, rfl⟩
        · obtain ⟨t, ht⟩ := ih
            (msgs ++ [Msg.modelText content,
                      Msg.retry none plainTextNotPermitted none]) (retries + 1)
          exact ⟨[Msg.modelText content,
                  Msg.retry none plainTextNotPermitted none] ++ t,
            by rw [ht, List.append_assoc]⟩
    next calls heq =>
      split
      next call tool heq2 =>
        split
        next data heq3 => exact ⟨_, rfl⟩
        next errs heq3 =>
          split
          · exact ⟨_, rfl⟩
          · obtain ⟨t, ht⟩ := ih
              (msgs ++ [Msg.modelStructured calls,
                        Msg.retry (some call.toolName) (renderErrors errs)
                          call.id]) (retries + 1)
            exact ⟨[Msg.modelStructured calls,
                    Msg.retry (some call.toolName) (renderErrors errs)
                      call.id] ++ t,
              by rw [ht, List.append_assoc]⟩
      next heq2 =>
        split
        · exact ⟨_, rfl⟩
        · split
          next e heq3 => exact ⟨_, rfl⟩
          next newMsgs retries2 heq3 =>
            obtain ⟨t, ht⟩ := ih
              (msgs ++ Msg.modelStructured calls :: newMsgs) retries2
            refine ⟨Msg.modelStructured calls :: newMsgs ++ t, ?_⟩
            rw [ht]
            simp

theorem runAgent_done (cfg : AgentCfg) (model : List Msg → ModelResponse)
    (fuel : Nat) (prompt : String) (history : List Msg) (r : RunResult)
    (h : runAgent cfg model fuel prompt history = .done r) :
    r.newMessageIndex = (prepareMessages cfg history).length
    ∧ r.allMessages = prepareMessages cfg history ++ r.newMessages := by
  unfold runAgent at h
  cases hl : runLoop cfg model fuel
      (prepareMessages cfg history ++ [Msg.user prompt]) 0 with
  | fatal e m => rw [hl] at h; cases h
  | finished msgs data =>
    rw [hl] at h
    cases h
    refine ⟨rfl, ?_⟩
    obtain ⟨t, ht⟩ := runLoop_msgs_extends cfg model fuel
      (prepareMessages cfg history ++ [Msg.user prompt]) 0
    rw [hl] at ht
    simp only [LoopOutcome.msgs] at ht
    show msgs = prepareMessages cfg history ++
      (RunResult.newMessages ⟨msgs, (prepareMessages cfg history).length,
        data, Cost.zero⟩)
    rw [ht, List.append_assoc]
    simp [RunResult.newMessages, List.drop_left]

/-- Claim C3 (amended): for every run that ends in Done, the new-message
index equals the length of the conversation after system-prompt
bootstrapping (the passed-in history plus any inserted system prompts),
`new_messages()` is `all_messages()` sliced from that index, and the full
history is exactly the bootstrapped history followed by the messages
produced during this run. -/
theorem claim_C3_new_message_index :
    ∀ (cfg : AgentCfg) (model : List Msg → ModelResponse) (fuel : Nat)
      (prompt : String) (history : List Msg) (r : RunResult),
      runAgent cfg model fuel prompt history = .done r →
      r.newMessageIndex = (prepareMessages cfg history).length
      ∧ r.newMessages = r.allMessages.drop r.newMessageIndex
      ∧ r.allMessages = prepareMessages cfg history ++ r.newMessages := by
  intro cfg model fuel prompt history r h
  obtain ⟨h1, h2⟩ := runAgent_done cfg model fuel prompt history r h
  exact ⟨h1, rfl, h2⟩

def cfgW : AgentCfg := ⟨[], [], [], true, 1⟩

def modelW : List Msg → ModelResponse := fun _ => .text "ok"

/-- Witness for C3 (amended) at a concrete run. -/
theorem claim_C3_new_message_index_witness :
    (⟨[Msg.user "hi", Msg.modelText "ok"], 0, "ok", Cost.zero⟩
        : RunResult).newMessageIndex = (prepareMessages cfgW []).length
    ∧ (⟨[Msg.user "hi", Msg.modelText "ok"], 0, "ok", Cost.zero⟩
        : RunResult).newMessages =
      (⟨[Msg.user "hi", Msg.modelText "ok"], 0, "ok", Cost.zero⟩
        : RunResult).allMessages.drop 0
    ∧ (⟨[Msg.user "hi", Msg.modelText "ok"], 0, "ok", Cost.zero⟩
        : RunResult).allMessages =
      prepareMessages cfgW [] ++
        (⟨[Msg.user "hi", Msg.modelText "ok"], 0, "ok", Cost.zero⟩
          : RunResult).newMessages :=
  claim_C3_new_message_index cfgW modelW 1 "hi" [] _ rfl

def cfgC3 : AgentCfg := ⟨["Foobar"], [], [], true, 1⟩

def modelC3 : List Msg → ModelResponse := fun _ => .text "ok"

/-- Counterexample to C3 as stated: a run over a passed-in history of
length 1 without a system prompt (the agent has one configured) ends in
Done with `new_message_index = 2`, not 1 — the inserted `SystemPrompt`
shifts the index past the raw passed-in length. -/
theorem claim_C3_counterexample :
    runAgent cfgC3 modelC3 5 "Hello again" [Msg.user "Hi"] =
      .done ⟨[Msg.system "Foobar", Msg.user "Hi", Msg.user "Hello again",
              Msg.modelText "ok"], 2, "ok", Cost.zero⟩
    ∧ ([Msg.user "Hi"] : List Msg).length ≠ 2 :=
  ⟨rfl, by decide⟩

/-- Claim C4: with exactly one configured system prompt, the loop ensures
exactly one `SystemPrompt` at the start of the conversation before the
first request — a prior history with no `SystemPrompt` gets exactly one
inserted at position 0, a history already beginning with one gets none
added, and for a run ending in Done the final history length is the input
length plus the messages produced this run, plus one exactly when a
`SystemPrompt` was inserted. -/
theorem claim_C4_system_prompt_bootstrap :
    ∀ (cfg : AgentCfg) (p : String) (history : List Msg)
      (model : List Msg → ModelResponse) (fuel : Nat) (prompt : String)
      (r : RunResult),
      cfg.systemPrompts = [p] →
      (history.any Msg.isSystem = false →
         prepareMessages cfg history = Msg.system p :: history)
      ∧ (∀ s, history.head? = some (Msg.system s) →
         prepareMessages cfg history = history)
      ∧ (runAgent cfg model fuel prompt history = .done r →
         r.allMessages.length = history.length + r.newMessages.length +
           (if history.any Msg.isSystem then 0 else 1)) := by
  intro cfg p history model fuel prompt r hp
  refine ⟨?_, ?_, ?_⟩
  · intro hno
    simp [prepareMessages, hno, hp]
  · intro s hhead
    cases history with
    | nil => simp at hhead
    | cons a tl =>
      simp only [List.head?_cons, Option.some.injEq] at hhead
      subst hhead
      simp [prepareMessages, Msg.isSystem]
  · intro hdone
    obtain ⟨_, hall⟩ := runAgent_done cfg model fuel prompt history r hdone
    rw [hall]
    cases hany : history.any Msg.isSystem with
    | true => simp [prepareMessages, hany]
    | false => simp [prepareMessages, hany, hp]

def cfg4 : AgentCfg := ⟨["Foobar"], [], [], true, 1⟩

def model4 : List Msg → ModelResponse := fun _ => .text "done"

/-- Witness for C4: both bootstrap cases and the length accounting at
concrete runs. -/
theorem claim_C4_system_prompt_bootstrap_witness :
    (prepareMessages cfg4 [Msg.user "x"] = Msg.system "Foobar" :: [Msg.user "x"])
    ∧ (prepareMessages cfg4 [Msg.system "sp", Msg.user "x"] =
        [Msg.system "sp", Msg.user "x"])
    ∧ ((⟨[Msg.system "Foobar", Msg.user "x", Msg.user "go",
          Msg.modelText "done"], 2, "done", Cost.zero⟩
          : RunResult).allMessages.length =
        ([Msg.user "x"] : List Msg).length +
          (⟨[Msg.system "Foobar", Msg.user "x", Msg.user "go",
             Msg.modelText "done"], 2, "done", Cost.zero⟩
             : RunResult).newMessages.length +
          (if ([Msg.user "x"] : List Msg).any Msg.isSystem then 0 else 1)) :=
  ⟨(claim_C4_system_prompt_bootstrap cfg4 "Foobar" [Msg.user "x"] model4 1
      "go" ⟨[], 0, "", Cost.zero⟩ rfl).1 rfl,
   (claim_C4_system_prompt_bootstrap cfg4 "Foobar"
      [Msg.system "sp", Msg.user "x"] model4 1 "go" ⟨[], 0, "", Cost.zero⟩
      rfl).2.1 "sp" rfl,
   (claim_C4_system_prompt_bootstrap cfg4 "Foobar" [Msg.user "x"] model4 1
      "go" ⟨[Msg.system "Foobar", Msg.user "x", Msg.user "go",
            Msg.modelText "done"], 2, "done", Cost.zero⟩ rfl).2.2 rfl⟩

def cfg0 : AgentCfg := ⟨[], [], [], true, 1⟩

def unknownModel : List Msg → ModelResponse :=
  fun _ => .structured [ToolCallM.fromJson "foobar" "\x7b\x7d" none]

/-- Claim C7: a structured response naming a tool matching neither a
function tool nor a result-schema tool appends exactly one `RetryPrompt`
before the next model call — its content being the unknown-tool text with
the valid names when any tools exist, else the no-tools text — consuming
exactly one retry slot; with the default maximum of 1, a second consecutive
unknown-tool response ends the run fatally with the retry-exceeded
message (the exact history of `test_unknown_tool`). -/
theorem claim_C7_unknown_tool_retry :
    (∀ (cfg : AgentCfg) (model : List Msg → ModelResponse) (fuel : Nat)
       (msgs : List Msg) (retries : Nat) (call : ToolCallM),
       model msgs = .structured [call] →
       cfg.functionTools.find? (fun t => t.name = call.toolName) = none →
       findResultTool cfg.resultTools call.toolName = none →
       retries + 1 ≤ cfg.maxRetries →
       runLoop cfg model (fuel + 1) msgs retries =
         runLoop cfg model fuel
           (msgs ++ [Msg.modelStructured [call],
             Msg.retry none
               ("Unknown tool name: " ++ sq ++ call.toolName ++ sq ++ ". " ++
                 (if (allToolNames cfg).isEmpty then "No tools available."
                  else "Available tools: " ++
                    String.intercalate ", " (allToolNames cfg))) none])
           (retries + 1))
    ∧ runAgent cfg0 unknownModel 5 "Hello" [] =
        .fatal "Exceeded maximum retries (1) for result validation"
          [Msg.user "Hello",
           Msg.modelStructured [ToolCallM.fromJson "foobar" "\x7b\x7d" none],
           Msg.retry none
             ("Unknown tool name: " ++ sq ++ "foobar" ++ sq ++
               ". No tools available.") none,
           Msg.modelStructured [ToolCallM.fromJson "foobar" "\x7b\x7d" none]] := by
  refine ⟨?_, rfl⟩
  intro cfg model fuel msgs retries call hm hf hres hle
  have hnot : ¬ cfg.maxRetries < retries + 1 := by omega
  rw [runLoop, hm]
  simp [findResultCall, hres, handleCalls, hf, hnot, unknownToolMsg,
    Except.map]

/-- Witness for C7 at concrete inputs: one unknown-tool response appends
exactly the one retry prompt and increments the retry counter. -/
theorem claim_C7_unknown_tool_retry_witness :
    runLoop cfg0 unknownModel 1 [Msg.user "m"] 0 =
      runLoop cfg0 unknownModel 0
        ([Msg.user "m"] ++
          [Msg.modelStructured [ToolCallM.fromJson "foobar" "\x7b\x7d" none],
           Msg.retry none
             ("Unknown tool name: " ++ sq ++ "foobar" ++ sq ++ ". " ++
               (if (allToolNames cfg0).isEmpty then "No tools available."
                else "Available tools: " ++
                  String.intercalate ", " (allToolNames cfg0))) none]) 1 :=
  claim_C7_unknown_tool_retry.1 cfg0 unknownModel 0 [Msg.user "m"] 0
    (ToolCallM.fromJson "foobar" "\x7b\x7d" none) rfl rfl rfl (by decide)

theorem string_append_left_cancel {p a b : String} (h : p ++ a = p ++ b) :
    a = b := by
  have hd := congrArg String.data h
  simp only [String.data_append] at hd
  exact String.ext (List.append_cancel_left hd)

/-- Claim C8 (amended): a union result type yields one tool per member
named exactly `final_result_<MemberTypeName>`; a member without a docstring
gets the description `<MemberTypeName>: <default closing-conversation
description>`, while a member with its own docstring keeps the bare
docstring (no name prefix); and dispatching a tool resolves to — and
validates with — the matching member only. -/
theorem claim_C8_union_result_tools :
    (∀ members : List UnionMember,
       (buildUnionSchema members).map (fun t => t.name) =
         members.map fun m => "final_result_" ++ m.name)
    ∧ (∀ m : UnionMember, (unionResultTool m).description =
         match m.docstring with
         | some d => d
         | none => m.name ++ ": " ++ defaultResultDescription)
    ∧ (∀ (members : List UnionMember) (m : UnionMember),
       (members.map fun x => x.name).Nodup → m ∈ members →
       findResultTool (buildUnionSchema members) ("final_result_" ++ m.name) =
         some (unionResultTool m))
    ∧ (∀ m : UnionMember, (unionResultTool m).validate = m.validate) := by
  refine ⟨?_, fun m => rfl, ?_, fun m => rfl⟩
  · intro members
    simp [buildUnionSchema, unionResultTool]
  · intro members m
    induction members with
    | nil => intro _ hm; simp at hm
    | cons x rest ih =>
      intro hnd hm
      simp only [List.map_cons, List.nodup_cons] at hnd
      obtain ⟨hx, hrest⟩ := hnd
      rcases List.mem_cons.mp hm with hmx | hmr
      · subst hmx
        simp [buildUnionSchema, findResultTool, unionResultTool]
      · have hne : x.name ≠ m.name := by
          intro hEq
          exact hx (hEq ▸ List.mem_map_of_mem (fun u => u.name) hmr)
        have hne2 : ("final_result_" ++ x.name : String) ≠
            "final_result_" ++ m.name :=
          fun hEq => hne (string_append_left_cancel hEq)
        show  List.find? _ (unionResultTool x :: buildUnionSchema rest) = _
        rw [List.find?_cons_of_neg]
        · exact ih hrest hmr
        · simp [unionResultTool, hne2]

def fooMember : UnionMember := ⟨"Foo", none, fun _ => .ok "Foo"⟩

def barMember : UnionMember :=
  ⟨"Bar", some "This is a bar model.", fun _ => .ok "Bar"⟩

/-- Witness for C8 (amended): dispatching `final_result_Bar` in the
`Union[Foo, Bar]` schema of `test_response_multiple_return_tools` resolves
to the Bar tool only. -/
theorem claim_C8_union_result_tools_witness :
    findResultTool (buildUnionSchema [fooMember, barMember])
        ("final_result_" ++ barMember.name) =
      some (unionResultTool barMember) :=
  claim_C8_union_result_tools.2.2.1 [fooMember, barMember] barMember
    (by simp [fooMember, barMember])
    (List.mem_cons.mpr (Or.inr (List.mem_singleton.mpr rfl)))

/-- Counterexample to C8 as stated: in the `Union[Foo, Bar]` schema of
`test_response_multiple_return_tools`, the tool for Bar (which has the
docstring "This is a bar model.") is described by the bare docstring, not
by "Bar: " followed by the docstring as the claim requires. -/
theorem claim_C8_counterexample :
    ((buildUnionSchema [fooMember, barMember]).map fun t =>
        (t.name, t.description)) =
      [("final_result_Foo", "Foo: " ++ defaultResultDescription),
       ("final_result_Bar", "This is a bar model.")]
    ∧ "This is a bar model." ≠ "Bar" ++ ": " ++ "This is a bar model." :=
  ⟨rfl, by decide⟩

end PydanticAI
